import Mathlib

/-!
Verification of the callback-correlation bridge behind the `Pool` façade of
this repository (src/src/pool.rs).

The repository's own source contains the façade (`Pool::create_ledger_config`
and friends, in their blocking, blocking-with-timeout and closure-based
variants) together with its test suite.  The bridge itself — the handle
allocator, the pending-call registry, the dispatch adapters and the
waiters (`ClosureHandler`, `ResultHandler`) — lives outside the provided
sources, so it is modelled here from the specification, with the concrete
status codes pinned by the in-source tests (e.g. `config_timeout_timeouts`
asserts that a timed-out blocking call surfaces `ErrorCode::CommonIOError`).
-/

set_option linter.unusedVariables false

/-- Correlation token / command handle: an opaque integer issued by the
handle allocator (`IndyHandle` is `i32` on the Rust side; tokens are
abstract here). -/
abbrev CommandHandle := Nat

/-- Modelled from the spec and the in-source tests: the status-code domain
(`ErrorCode` on the Rust side, defined outside the provided sources).  The
named variants are exactly those the tests in src/src/pool.rs pin, with
their libindy numeric codes; every other native code is carried verbatim
by `other`.  Note that the domain has no dedicated timeout variant. -/
inductive ErrorCode where
  | success
  | commonInvalidParam2
  | commonInvalidStructure
  | commonIOError
  | poolLedgerConfigAlreadyExistsError
  | other (code : Int)
deriving DecidableEq, Repr

/-- Modelled from the spec: `ErrorCode::from` on the raw `i32` status that
crosses the foreign boundary (numeric values from the libindy error
taxonomy: 0, 101, 113, 114, 306). -/
def ErrorCode.ofInt (code : Int) : ErrorCode :=
  if code = 0 then .success
  else if code = 101 then .commonInvalidParam2
  else if code = 113 then .commonInvalidStructure
  else if code = 114 then .commonIOError
  else if code = 306 then .poolLedgerConfigAlreadyExistsError
  else .other code

/-- Modelled from the spec (§3 Result Shapes): the closed set of payload
shapes a continuation can receive; one dispatch adapter exists per shape
(`ResponseEmptyCB`, `ResponseI32CB`, `ResponseStringCB` in the source). -/
inductive ResultShape where
  | empty
  | handleValue
  | stringValue
deriving DecidableEq, Repr

/-- Modelled from the spec (§3 ResultPayload): zero or more typed values
whose shape is fixed per operation. -/
inductive ResultPayload where
  | empty
  | handle (h : Int)
  | str (s : String)
deriving DecidableEq, Repr

/-- Modelled from the spec (§3 Outcome): `{StatusCode, payload}` delivered
at most once to whichever consumer owns the pending call. -/
structure Outcome where
  status : ErrorCode
  payload : ResultPayload
deriving DecidableEq, Repr

/-- Modelled from the spec (§3 PendingCall): the stored continuation — a
one-shot channel sender for the blocking waiters, or a boxed user closure
for the closure waiter — tagged with its result shape. -/
inductive PendingCall where
  | blockingChannel (shape : ResultShape)
  | userClosure (shape : ResultShape)
deriving DecidableEq, Repr

/-- Modelled from the spec (§4.2): the pending-call registry, a table from
correlation token to stored continuation. -/
abbrev Registry := List (CommandHandle × PendingCall)

namespace Registry

/-- Modelled from the spec (§4.2): `register(token, PendingCall)` inserts
the entry (the token is required to be absent; `wf` captures that). -/
def register (r : Registry) (t : CommandHandle) (p : PendingCall) : Registry :=
  (t, p) :: r

/-- Modelled from the spec (§4.2): `take(token)` atomically removes and
returns the entry if present, `none` otherwise. -/
def take (r : Registry) (t : CommandHandle) : Option PendingCall × Registry :=
  match r with
  | [] => (none, [])
  | (u, p) :: rest =>
    if u = t then (some p, rest)
    else
      let tail := take rest t
      (tail.1, (u, p) :: tail.2)

/-- The tokens currently present in the registry. -/
def keys (r : Registry) : List CommandHandle :=
  r.map Prod.fst

/-- Registry well-formedness: at most one entry per token (the `register`
contract of §4.2 forbids inserting a token already present). -/
def wf (r : Registry) : Prop :=
  r.keys.Nodup

theorem take_eq_none_of_not_mem (r : Registry) (t : CommandHandle)
    (h : t ∉ r.keys) : (r.take t).1 = none := by
  induction r with
  | nil => rfl
  | cons hd tl ih =>
    obtain ⟨u, p⟩ := hd
    simp only [keys, List.map_cons, List.mem_cons] at h
    push_neg at h
    simp only [take]
    rw [if_neg (by exact fun hut => h.1 hut.symm)]
    exact ih (by simpa [keys] using h.2)

theorem not_mem_keys_take (r : Registry) (t : CommandHandle) (h : r.wf) :
    t ∉ ((r.take t).2).keys := by
  induction r with
  | nil => simp [take, keys]
  | cons hd tl ih =>
    obtain ⟨u, p⟩ := hd
    simp only [wf, keys, List.map_cons, List.nodup_cons] at h
    by_cases hut : u = t
    · subst hut
      simp only [take, if_pos rfl]
      exact h.1
    · simp only [take, if_neg hut, keys, List.map_cons, List.mem_cons]
      push_neg
      refine ⟨fun hh => hut hh.symm, ?_⟩
      exact ih h.2

theorem keys_take_subset (r : Registry) (t : CommandHandle) :
    ((r.take t).2).keys ⊆ r.keys := by
  induction r with
  | nil => simp [take]
  | cons hd tl ih =>
    obtain ⟨u, p⟩ := hd
    by_cases hut : u = t
    · subst hut
      simp only [take, if_pos rfl, keys, List.map_cons]
      exact fun x hx => List.mem_cons_of_mem _ hx
    · simp only [take, if_neg hut, keys, List.map_cons]
      intro x hx
      rcases List.mem_cons.1 hx with hx | hx
      · exact List.mem_cons.2 (Or.inl hx)
      · exact List.mem_cons.2 (Or.inr (ih hx))

theorem wf_take (r : Registry) (t : CommandHandle) (h : r.wf) :
    ((r.take t).2).wf := by
  induction r with
  | nil => simp [take, wf, keys]
  | cons hd tl ih =>
    obtain ⟨u, p⟩ := hd
    simp only [wf, keys, List.map_cons, List.nodup_cons] at h
    by_cases hut : u = t
    · subst hut
      simp only [take, if_pos rfl]
      exact h.2
    · simp only [take, if_neg hut, wf, keys, List.map_cons, List.nodup_cons]
      exact ⟨fun hm => h.1 (keys_take_subset tl t hm), ih h.2⟩

/-- The registry's single-consumer property: once a `take` has returned the
entry for a token, a second `take` of the same token returns `none`. -/
theorem take_take_eq_none (r : Registry) (t : CommandHandle) (p : PendingCall)
    (h : r.wf) (hp : (r.take t).1 = some p) :
    (((r.take t).2).take t).1 = none :=
  take_eq_none_of_not_mem _ _ (not_mem_keys_take r t h)

end Registry

/-- Modelled from the spec (§4.4/§4.5): the delivery strategy of a call —
block indefinitely, block up to a deadline, or hand the completion to a
user closure.  The deadline is in abstract time units measured from the
native invocation. -/
inductive Strategy where
  | block
  | blockTimeout (timeout : Nat)
  | invokeClosure
deriving DecidableEq, Repr

/-- Modelled from the spec: the registry entry a strategy stores — the
blocking styles register a one-shot channel sender, the closure style
registers the boxed user continuation (spec §4.4 step 1, §4.5). -/
def pendingFor : Strategy → ResultShape → PendingCall
  | .block, sh => .blockingChannel sh
  | .blockTimeout _, sh => .blockingChannel sh
  | .invokeClosure, sh => .userClosure sh

/-- Modelled from the spec (§6 outbound contract): the asynchronous
completion the native side may later deliver for a call — a status, a
payload of the operation's result shape, and the abstract time (after the
invocation) at which the dispatch adapter fires. -/
structure Completion where
  status : ErrorCode
  payload : ResultPayload
  delay : Nat
deriving DecidableEq, Repr

/-- Modelled from the spec (§6): the observable behavior of one native
call — the status returned synchronously, and the at-most-one asynchronous
completion (`none` when the native side never fires the callback). -/
structure NativeBehavior where
  immediate : ErrorCode
  completion : Option Completion
deriving DecidableEq, Repr

/-- One observable event of a bridged call.  Times are abstract durations
since the native invocation; registration and invocation happen at time
zero, in program order. -/
inductive BridgeEvent where
  | registered (t : CommandHandle) (p : PendingCall)
  | invoked (t : CommandHandle) (st : ErrorCode)
  | tookEntry (time : Nat) (t : CommandHandle) (got : Option PendingCall)
  | delivered (time : Nat) (t : CommandHandle) (o : Outcome)
deriving DecidableEq, Repr

/-- Modelled from the spec (§2 control flow, §4.2–§4.5): the event trace of
one bridged call.  The façade registers the continuation, then invokes the
native call.  On a synchronous failure it immediately removes the orphaned
entry with `take` (early-error path).  When the native side later fires the
dispatch adapter, the adapter removes the token with `take` and delivers the
outcome to the stored continuation only if the entry was still present; an
unknown token produces no delivery.  The calling thread's waiting (or not)
never alters this trace — the registry, not the caller, owns the entry's
lifetime. -/
def callEvents (s : Strategy) (sh : ResultShape) (nb : NativeBehavior)
    (t : CommandHandle) : List BridgeEvent :=
  let p := pendingFor s sh
  let r1 := Registry.register [] t p
  let pre := [BridgeEvent.registered t p, BridgeEvent.invoked t nb.immediate]
  if nb.immediate = ErrorCode.success then
    match nb.completion with
    | some c =>
      let q := (r1.take t).1
      pre ++ BridgeEvent.tookEntry c.delay t q ::
        (match q with
         | some _ => [BridgeEvent.delivered c.delay t ⟨c.status, c.payload⟩]
         | none => [])
    | none => pre
  else
    let q := (r1.take t).1
    let r2 := (r1.take t).2
    let early := pre ++ [BridgeEvent.tookEntry 0 t q]
    match nb.completion with
    | some c =>
      let q2 := (r2.take t).1
      early ++ BridgeEvent.tookEntry c.delay t q2 ::
        (match q2 with
         | some _ => [BridgeEvent.delivered c.delay t ⟨c.status, c.payload⟩]
         | none => [])
    | none => early

/-- The timed outcomes actually delivered to the pending call in a trace. -/
def deliveries (evs : List BridgeEvent) : List (Nat × Outcome) :=
  evs.filterMap fun e =>
    match e with
    | .delivered tm _ o => some (tm, o)
    | _ => none

/-- The times at which a `take` actually removed the entry (found it). -/
def successfulTakes (evs : List BridgeEvent) : List Nat :=
  evs.filterMap fun e =>
    match e with
    | .tookEntry tm _ (some _) => some tm
    | _ => none

/-- The time at which the registry entry of the call was removed, if ever. -/
def entryTakenAt (evs : List BridgeEvent) : Option Nat :=
  (successfulTakes evs).head?

/-- Whether the registry entry of the call is still present at abstract
time `u` (after registration). -/
def entryPresentAt (evs : List BridgeEvent) (u : Nat) : Bool :=
  match entryTakenAt evs with
  | some v => decide (u < v)
  | none => true

/-- Modelled from the spec: the wrapped operation's side effect (e.g. the
pool-ledger configuration being created on disk) occurs exactly when the
operation runs to completion successfully, i.e. when its asynchronous
completion fires with a success status — independently of whether any
caller is still waiting (spec §4.4 step 4, test `config_timeout_timeouts`). -/
def sideEffectOccurs (nb : NativeBehavior) : Bool :=
  match nb.completion with
  | some c => decide (c.status = ErrorCode.success)
  | none => false

/-- Convert a delivered status into the blocking caller's result
(success status becomes `Except.ok`, anything else `Except.error`). -/
def toEmptyResult (st : ErrorCode) : Except ErrorCode Unit :=
  if st = ErrorCode.success then .ok () else .error st

/-- Value extraction of the single-integer adapter (`cb_ec_i32`): a
non-handle payload is a shape mismatch, a programming-contract violation
that cannot occur under the per-operation shape contract (spec §3); the
default is the adapter's zero value. -/
def Outcome.handleValue (o : Outcome) : Int :=
  match o.payload with
  | .handle h => h
  | _ => 0

/-- Value extraction of the single-string adapter (`cb_ec_string`); see
`Outcome.handleValue` for the shape-mismatch convention. -/
def Outcome.stringValue (o : Outcome) : String :=
  match o.payload with
  | .str s => s
  | _ => ""

namespace ResultHandler

/-- Modelled from the spec (§4.4, no-timeout blocking waiter,
`ResultHandler::empty` in the source corpus): a synchronous failure status
short-circuits without touching the channel; otherwise the caller blocks
indefinitely on the channel and converts the first delivered outcome.
`none` means the caller blocks forever (no delivery ever arrives). -/
def empty (err : ErrorCode) (received : List (Nat × Outcome)) :
    Option (Except ErrorCode Unit) :=
  if err = ErrorCode.success then
    match received with
    | (_, o) :: _ => some (toEmptyResult o.status)
    | [] => none
  else some (.error err)

/-- Modelled from the spec (§4.4, timeout blocking waiter,
`ResultHandler::empty_timeout` in the source corpus): a synchronous failure
short-circuits; otherwise the caller blocks up to the deadline and only an
outcome delivered within it is received.  On deadline expiry the channel's
receive-timeout failure is surfaced as `CommonIOError` — the code pinned by
the in-source test `config_timeout_timeouts` (src/src/pool.rs line 590);
the entry is deliberately not taken from the registry. -/
def empty_timeout (err : ErrorCode) (received : List (Nat × Outcome))
    (timeout : Nat) : Except ErrorCode Unit :=
  if err = ErrorCode.success then
    match received.filter (fun d => d.1 ≤ timeout) with
    | (_, o) :: _ => toEmptyResult o.status
    | [] => .error ErrorCode.commonIOError
  else .error err

/-- Modelled from the spec (§4.4, `ResultHandler::one`): like `empty` but
extracting one typed value from the delivered payload on success. -/
def one (extract : Outcome → α) (err : ErrorCode)
    (received : List (Nat × Outcome)) : Option (Except ErrorCode α) :=
  if err = ErrorCode.success then
    match received with
    | (_, o) :: _ =>
      some (if o.status = ErrorCode.success then .ok (extract o) else .error o.status)
    | [] => none
  else some (.error err)

/-- Modelled from the spec (§4.4, `ResultHandler::one_timeout`): like
`empty_timeout` but extracting one typed value on success. -/
def one_timeout (extract : Outcome → α) (err : ErrorCode)
    (received : List (Nat × Outcome)) (timeout : Nat) : Except ErrorCode α :=
  if err = ErrorCode.success then
    match received.filter (fun d => d.1 ≤ timeout) with
    | (_, o) :: _ =>
      if o.status = ErrorCode.success then .ok (extract o) else .error o.status
    | [] => .error ErrorCode.commonIOError
  else .error err

end ResultHandler

/-- An argument as marshaled into the foreign calling convention by the
façade (`c_str!`, `opt_c_ptr!`, or passed directly). -/
inductive FFIArg where
  | cstring (s : String)
  | nullPtr
  | handle (h : Int)
  | unsigned (n : Nat)
deriving DecidableEq, Repr

/-- One native invocation as performed by a façade function: the command
handle (correlation token), the native entry point, and the marshaled
argument list, in order. -/
structure NativeInvocation where
  commandHandle : CommandHandle
  entryPoint : String
  args : List FFIArg
deriving DecidableEq, Repr

/-- Embeds `c_str!`: marshaling of a Rust `&str` into the C string handed
across the boundary (content-preserving at this abstraction). -/
def cStr (s : String) : String := s

/-- Embeds `opt_c_str!`/`opt_c_ptr!` (used by `Pool::_open_ledger`): an
absent optional string crosses the boundary as the null pointer. -/
def optCPtr : Option String → FFIArg
  | some s => .cstring (cStr s)
  | none => .nullPtr

/-- Raw asynchronous completion as it crosses the boundary: the status is
still the raw integer; the dispatch adapter converts it. -/
structure RawCompletion where
  statusRaw : Int
  payload : ResultPayload
  delay : Nat
deriving DecidableEq, Repr

/-- Raw observable behavior of one native invocation: the raw synchronous
status plus the at-most-one later completion. -/
structure RawNativeBehavior where
  immediateRaw : Int
  completion : Option RawCompletion
deriving DecidableEq, Repr

/-- Status conversion at the boundary (`ErrorCode::from` on both the
synchronous return and the callback status). -/
def RawNativeBehavior.toBehavior (rb : RawNativeBehavior) : NativeBehavior :=
  { immediate := ErrorCode.ofInt rb.immediateRaw
    completion := rb.completion.map fun c =>
      ⟨ErrorCode.ofInt c.statusRaw, c.payload, c.delay⟩ }

/-- The native library, as the bridge sees it: each invocation determines
an observable behavior (synchronous status and optional completion). -/
abbrev FFIEnv := NativeInvocation → RawNativeBehavior

/-- What a closure-based (`_async`) façade call produces: the status it
returns immediately to its caller, the timed invocations its user
continuation later receives, and the native invocation it performed. -/
structure AsyncCallResult where
  returned : ErrorCode
  closureCalls : List (Nat × Outcome)
  invocation : NativeInvocation
deriving DecidableEq, Repr

/-- Modelled from the spec (§9 design note): the single generic
register + invoke + deliver primitive, parameterized over the delivery
strategy — register the strategy's continuation, invoke the native call,
and expose the converted synchronous status together with the outcomes the
bridge delivers for this token.  Every delivery strategy is then a pure
function of this pair. -/
def registerInvokeDeliver (s : Strategy) (sh : ResultShape) (ffi : FFIEnv)
    (inv : NativeInvocation) : ErrorCode × List (Nat × Outcome) :=
  (ErrorCode.ofInt (ffi inv).immediateRaw,
   deliveries (callEvents s sh ((ffi inv).toBehavior) inv.commandHandle))

namespace Pool

/-- Embeds `Pool::_create_ledger_config` (src/src/pool.rs lines 66–71):
marshals both strings with `c_str!` and invokes
`pool::indy_create_pool_ledger_config`, converting the raw status with
`ErrorCode::from`.  Also returns the invocation it performed. -/
def _create_ledger_config (ffi : FFIEnv) (command_handle : CommandHandle)
    (pool_name pool_config : String) : ErrorCode × NativeInvocation :=
  let inv : NativeInvocation :=
    ⟨command_handle, "indy_create_pool_ledger_config",
     [FFIArg.cstring (cStr pool_name), FFIArg.cstring (cStr pool_config)]⟩
  (ErrorCode.ofInt (ffi inv).immediateRaw, inv)

/-- Embeds `Pool::create_ledger_config` (lines 26–32): `cb_ec` registers a
blocking channel of empty shape, `_create_ledger_config` invokes, and
`ResultHandler::empty` delivers. -/
def create_ledger_config (ffi : FFIEnv) (command_handle : CommandHandle)
    (pool_name pool_config : String) :
    Option (Except ErrorCode Unit) × NativeInvocation :=
  let er := _create_ledger_config ffi command_handle pool_name pool_config
  (ResultHandler.empty er.1
     (deliveries (callEvents .block .empty ((ffi er.2).toBehavior) command_handle)),
   er.2)

/-- Embeds `Pool::create_ledger_config_timeout` (lines 43–49). -/
def create_ledger_config_timeout (ffi : FFIEnv) (command_handle : CommandHandle)
    (pool_name pool_config : String) (timeout : Nat) :
    Except ErrorCode Unit × NativeInvocation :=
  let er := _create_ledger_config ffi command_handle pool_name pool_config
  (ResultHandler.empty_timeout er.1
     (deliveries (callEvents (.blockTimeout timeout) .empty
        ((ffi er.2).toBehavior) command_handle))
     timeout,
   er.2)

/-- Embeds `Pool::create_ledger_config_async` (lines 60–64): the user
closure is registered via `convert_cb_ec` and the native synchronous
status is returned unchanged. -/
def create_ledger_config_async (ffi : FFIEnv) (command_handle : CommandHandle)
    (pool_name pool_config : String) : AsyncCallResult :=
  let er := _create_ledger_config ffi command_handle pool_name pool_config
  { returned := er.1
    closureCalls :=
      deliveries (callEvents .invokeClosure .empty ((ffi er.2).toBehavior) command_handle)
    invocation := er.2 }

/-- Embeds `Pool::_open_ledger` (lines 160–165): marshals the name with
`c_str!` and the optional config with `opt_c_str!`/`opt_c_ptr!`, invoking
`pool::indy_open_pool_ledger`. -/
def _open_ledger (ffi : FFIEnv) (command_handle : CommandHandle)
    (pool_name : String) (config : Option String) : ErrorCode × NativeInvocation :=
  let inv : NativeInvocation :=
    ⟨command_handle, "indy_open_pool_ledger",
     [FFIArg.cstring (cStr pool_name), optCPtr config]⟩
  (ErrorCode.ofInt (ffi inv).immediateRaw, inv)

/-- Embeds `Pool::open_ledger` (lines 94–100): `cb_ec_i32` registers a
blocking channel of single-handle shape, delivered by `ResultHandler::one`. -/
def open_ledger (ffi : FFIEnv) (command_handle : CommandHandle)
    (pool_name : String) (config : Option String) :
    Option (Except ErrorCode Int) × NativeInvocation :=
  let er := _open_ledger ffi command_handle pool_name config
  (ResultHandler.one Outcome.handleValue er.1
     (deliveries (callEvents .block .handleValue ((ffi er.2).toBehavior) command_handle)),
   er.2)

/-- Embeds `Pool::open_ledger_timeout` (lines 124–130). -/
def open_ledger_timeout (ffi : FFIEnv) (command_handle : CommandHandle)
    (pool_name : String) (config : Option String) (timeout : Nat) :
    Except ErrorCode Int × NativeInvocation :=
  let er := _open_ledger ffi command_handle pool_name config
  (ResultHandler.one_timeout Outcome.handleValue er.1
     (deliveries (callEvents (.blockTimeout timeout) .handleValue
        ((ffi er.2).toBehavior) command_handle))
     timeout,
   er.2)

/-- Embeds `Pool::open_ledger_async` (lines 154–158). -/
def open_ledger_async (ffi : FFIEnv) (command_handle : CommandHandle)
    (pool_name : String) (config : Option String) : AsyncCallResult :=
  let er := _open_ledger ffi command_handle pool_name config
  { returned := er.1
    closureCalls :=
      deliveries (callEvents .invokeClosure .handleValue ((ffi er.2).toBehavior) command_handle)
    invocation := er.2 }

/-- Embeds `Pool::_refresh` (lines 206–208): invokes
`pool::indy_refresh_pool_ledger` on the pool handle. -/
def _refresh (ffi : FFIEnv) (command_handle : CommandHandle)
    (pool_handle : Int) : ErrorCode × NativeInvocation :=
  let inv : NativeInvocation :=
    ⟨command_handle, "indy_refresh_pool_ledger", [FFIArg.handle pool_handle]⟩
  (ErrorCode.ofInt (ffi inv).immediateRaw, inv)

/-- Embeds `Pool::refresh` (lines 171–177). -/
def refresh (ffi : FFIEnv) (command_handle : CommandHandle) (pool_handle : Int) :
    Option (Except ErrorCode Unit) × NativeInvocation :=
  let er := _refresh ffi command_handle pool_handle
  (ResultHandler.empty er.1
     (deliveries (callEvents .block .empty ((ffi er.2).toBehavior) command_handle)),
   er.2)

/-- Embeds `Pool::refresh_timeout` (lines 184–190). -/
def refresh_timeout (ffi : FFIEnv) (command_handle : CommandHandle)
    (pool_handle : Int) (timeout : Nat) : Except ErrorCode Unit × NativeInvocation :=
  let er := _refresh ffi command_handle pool_handle
  (ResultHandler.empty_timeout er.1
     (deliveries (callEvents (.blockTimeout timeout) .empty
        ((ffi er.2).toBehavior) command_handle))
     timeout,
   er.2)

/-- Embeds `Pool::refresh_async` (lines 200–204). -/
def refresh_async (ffi : FFIEnv) (command_handle : CommandHandle)
    (pool_handle : Int) : AsyncCallResult :=
  let er := _refresh ffi command_handle pool_handle
  { returned := er.1
    closureCalls :=
      deliveries (callEvents .invokeClosure .empty ((ffi er.2).toBehavior) command_handle)
    invocation := er.2 }

/-- Embeds `Pool::_list` (lines 240–242): invokes `pool::indy_list_pools`
with no operation arguments. -/
def _list (ffi : FFIEnv) (command_handle : CommandHandle) :
    ErrorCode × NativeInvocation :=
  let inv : NativeInvocation := ⟨command_handle, "indy_list_pools", []⟩
  (ErrorCode.ofInt (ffi inv).immediateRaw, inv)

/-- Embeds `Pool::list` (lines 211–217): `cb_ec_string` registers a
blocking channel of single-string shape. -/
def list (ffi : FFIEnv) (command_handle : CommandHandle) :
    Option (Except ErrorCode String) × NativeInvocation :=
  let er := _list ffi command_handle
  (ResultHandler.one Outcome.stringValue er.1
     (deliveries (callEvents .block .stringValue ((ffi er.2).toBehavior) command_handle)),
   er.2)

/-- Embeds `Pool::list_timeout` (lines 221–227). -/
def list_timeout (ffi : FFIEnv) (command_handle : CommandHandle) (timeout : Nat) :
    Except ErrorCode String × NativeInvocation :=
  let er := _list ffi command_handle
  (ResultHandler.one_timeout Outcome.stringValue er.1
     (deliveries (callEvents (.blockTimeout timeout) .stringValue
        ((ffi er.2).toBehavior) command_handle))
     timeout,
   er.2)

/-- Embeds `Pool::list_async` (lines 234–238). -/
def list_async (ffi : FFIEnv) (command_handle : CommandHandle) : AsyncCallResult :=
  let er := _list ffi command_handle
  { returned := er.1
    closureCalls :=
      deliveries (callEvents .invokeClosure .stringValue ((ffi er.2).toBehavior) command_handle)
    invocation := er.2 }

/-- Embeds `Pool::_close` (lines 283–285): invokes
`pool::indy_close_pool_ledger` on the pool handle. -/
def _close (ffi : FFIEnv) (command_handle : CommandHandle)
    (pool_handle : Int) : ErrorCode × NativeInvocation :=
  let inv : NativeInvocation :=
    ⟨command_handle, "indy_close_pool_ledger", [FFIArg.handle pool_handle]⟩
  (ErrorCode.ofInt (ffi inv).immediateRaw, inv)

/-- Embeds `Pool::close` (lines 248–254). -/
def close (ffi : FFIEnv) (command_handle : CommandHandle) (pool_handle : Int) :
    Option (Except ErrorCode Unit) × NativeInvocation :=
  let er := _close ffi command_handle pool_handle
  (ResultHandler.empty er.1
     (deliveries (callEvents .block .empty ((ffi er.2).toBehavior) command_handle)),
   er.2)

/-- Embeds `Pool::close_timeout` (lines 261–267). -/
def close_timeout (ffi : FFIEnv) (command_handle : CommandHandle)
    (pool_handle : Int) (timeout : Nat) : Except ErrorCode Unit × NativeInvocation :=
  let er := _close ffi command_handle pool_handle
  (ResultHandler.empty_timeout er.1
     (deliveries (callEvents (.blockTimeout timeout) .empty
        ((ffi er.2).toBehavior) command_handle))
     timeout,
   er.2)

/-- Embeds `Pool::close_async` (lines 277–281). -/
def close_async (ffi : FFIEnv) (command_handle : CommandHandle)
    (pool_handle : Int) : AsyncCallResult :=
  let er := _close ffi command_handle pool_handle
  { returned := er.1
    closureCalls :=
      deliveries (callEvents .invokeClosure .empty ((ffi er.2).toBehavior) command_handle)
    invocation := er.2 }

/-- Embeds `Pool::_delete` (lines 326–330): marshals the name with
`c_str!` and invokes `pool::indy_delete_pool_ledger_config`. -/
def _delete (ffi : FFIEnv) (command_handle : CommandHandle)
    (pool_name : String) : ErrorCode × NativeInvocation :=
  let inv : NativeInvocation :=
    ⟨command_handle, "indy_delete_pool_ledger_config",
     [FFIArg.cstring (cStr pool_name)]⟩
  (ErrorCode.ofInt (ffi inv).immediateRaw, inv)

/-- Embeds `Pool::delete` (lines 291–297). -/
def delete (ffi : FFIEnv) (command_handle : CommandHandle) (pool_name : String) :
    Option (Except ErrorCode Unit) × NativeInvocation :=
  let er := _delete ffi command_handle pool_name
  (ResultHandler.empty er.1
     (deliveries (callEvents .block .empty ((ffi er.2).toBehavior) command_handle)),
   er.2)

/-- Embeds `Pool::delete_timeout` (lines 304–310). -/
def delete_timeout (ffi : FFIEnv) (command_handle : CommandHandle)
    (pool_name : String) (timeout : Nat) : Except ErrorCode Unit × NativeInvocation :=
  let er := _delete ffi command_handle pool_name
  (ResultHandler.empty_timeout er.1
     (deliveries (callEvents (.blockTimeout timeout) .empty
        ((ffi er.2).toBehavior) command_handle))
     timeout,
   er.2)

/-- Embeds `Pool::delete_async` (lines 320–324). -/
def delete_async (ffi : FFIEnv) (command_handle : CommandHandle)
    (pool_name : String) : AsyncCallResult :=
  let er := _delete ffi command_handle pool_name
  { returned := er.1
    closureCalls :=
      deliveries (callEvents .invokeClosure .empty ((ffi er.2).toBehavior) command_handle)
    invocation := er.2 }

/-- Embeds `Pool::_set_protocol_version` (lines 392–397): passes the
`usize` protocol version directly to `pool::indy_set_protocol_version`,
with no marshaling and no validation. -/
def _set_protocol_version (ffi : FFIEnv) (command_handle : CommandHandle)
    (protocol_version : Nat) : ErrorCode × NativeInvocation :=
  let inv : NativeInvocation :=
    ⟨command_handle, "indy_set_protocol_version",
     [FFIArg.unsigned protocol_version]⟩
  (ErrorCode.ofInt (ffi inv).immediateRaw, inv)

/-- Embeds `Pool::set_protocol_version` (lines 343–349). -/
def set_protocol_version (ffi : FFIEnv) (command_handle : CommandHandle)
    (protocol_version : Nat) :
    Option (Except ErrorCode Unit) × NativeInvocation :=
  let er := _set_protocol_version ffi command_handle protocol_version
  (ResultHandler.empty er.1
     (deliveries (callEvents .block .empty ((ffi er.2).toBehavior) command_handle)),
   er.2)

/-- Embeds `Pool::set_protocol_version_timeout` (lines 363–369). -/
def set_protocol_version_timeout (ffi : FFIEnv) (command_handle : CommandHandle)
    (protocol_version : Nat) (timeout : Nat) :
    Except ErrorCode Unit × NativeInvocation :=
  let er := _set_protocol_version ffi command_handle protocol_version
  (ResultHandler.empty_timeout er.1
     (deliveries (callEvents (.blockTimeout timeout) .empty
        ((ffi er.2).toBehavior) command_handle))
     timeout,
   er.2)

/-- Embeds `Pool::set_protocol_version_async` (lines 386–390). -/
def set_protocol_version_async (ffi : FFIEnv) (command_handle : CommandHandle)
    (protocol_version : Nat) : AsyncCallResult :=
  let er := _set_protocol_version ffi command_handle protocol_version
  { returned := er.1
    closureCalls :=
      deliveries (callEvents .invokeClosure .empty ((ffi er.2).toBehavior) command_handle)
    invocation := er.2 }

end Pool

theorem Registry.take_register_empty (t : CommandHandle) (p : PendingCall) :
    Registry.take (Registry.register [] t p) t = (some p, []) := by
  simp [Registry.register, Registry.take]

theorem callEvents_success_some (s : Strategy) (sh : ResultShape)
    (c : Completion) (t : CommandHandle) :
    callEvents s sh ⟨ErrorCode.success, some c⟩ t =
      BridgeEvent.registered t (pendingFor s sh) ::
      BridgeEvent.invoked t ErrorCode.success ::
      BridgeEvent.tookEntry c.delay t (some (pendingFor s sh)) ::
      [BridgeEvent.delivered c.delay t ⟨c.status, c.payload⟩] := by
  simp [callEvents, Registry.take_register_empty]

theorem callEvents_success_none (s : Strategy) (sh : ResultShape)
    (t : CommandHandle) :
    callEvents s sh ⟨ErrorCode.success, none⟩ t =
      BridgeEvent.registered t (pendingFor s sh) ::
      [BridgeEvent.invoked t ErrorCode.success] := by
  simp [callEvents]

theorem callEvents_failure_some (s : Strategy) (sh : ResultShape)
    (e : ErrorCode) (c : Completion) (t : CommandHandle)
    (he : e ≠ ErrorCode.success) :
    callEvents s sh ⟨e, some c⟩ t =
      BridgeEvent.registered t (pendingFor s sh) ::
      BridgeEvent.invoked t e ::
      BridgeEvent.tookEntry 0 t (some (pendingFor s sh)) ::
      [BridgeEvent.tookEntry c.delay t none] := by
  simp [callEvents, Registry.take_register_empty, he, Registry.take]

theorem callEvents_failure_none (s : Strategy) (sh : ResultShape)
    (e : ErrorCode) (t : CommandHandle) (he : e ≠ ErrorCode.success) :
    callEvents s sh ⟨e, none⟩ t =
      BridgeEvent.registered t (pendingFor s sh) ::
      BridgeEvent.invoked t e ::
      [BridgeEvent.tookEntry 0 t (some (pendingFor s sh))] := by
  simp [callEvents, Registry.take_register_empty, he]

/-- C2: for every correlation token, the number of outcome deliveries to
its pending call is at most one, for every calling style and result shape;
it is exactly one when the native call's synchronous status was success and
the native side eventually fires the completion (the §6 contract); and a
token whose native call failed synchronously never receives a later
outcome, even if a completion were to fire anyway — the early-error `take`
has already removed the entry, so the dispatch finds nothing to deliver to. -/
theorem pool_C2_at_most_one_delivery :
    ∀ (s : Strategy) (sh : ResultShape) (nb : NativeBehavior) (t : CommandHandle),
      (deliveries (callEvents s sh nb t)).length ≤ 1
      ∧ (nb.immediate = ErrorCode.success → nb.completion.isSome →
          (deliveries (callEvents s sh nb t)).length = 1)
      ∧ (nb.immediate ≠ ErrorCode.success → deliveries (callEvents s sh nb t) = []) := by
  intro s sh nb t
  obtain ⟨imm, comp⟩ := nb
  by_cases h : imm = ErrorCode.success
  · subst h
    cases comp with
    | none =>
      refine ⟨?_, ?_, ?_⟩ <;>
        simp [callEvents_success_none, deliveries]
    | some c =>
      refine ⟨?_, ?_, ?_⟩ <;>
        simp [callEvents_success_some, deliveries]
  · cases comp with
    | none =>
      refine ⟨?_, ?_, ?_⟩ <;>
        simp [callEvents_failure_none _ _ _ _ h, deliveries, h]
    | some c =>
      refine ⟨?_, ?_, ?_⟩ <;>
        simp [callEvents_failure_some _ _ _ _ _ h, deliveries, h]

theorem pool_C2_witness :
    (deliveries (callEvents .block .empty
        ⟨ErrorCode.success, some ⟨ErrorCode.success, ResultPayload.empty, 3⟩⟩ 1)).length = 1
    ∧ deliveries (callEvents .invokeClosure .empty
        ⟨ErrorCode.commonInvalidStructure, some ⟨ErrorCode.success, ResultPayload.empty, 3⟩⟩ 2) = [] :=
  ⟨(pool_C2_at_most_one_delivery .block .empty
      ⟨ErrorCode.success, some ⟨ErrorCode.success, ResultPayload.empty, 3⟩⟩ 1).2.1 rfl rfl,
   (pool_C2_at_most_one_delivery .invokeClosure .empty
      ⟨ErrorCode.commonInvalidStructure, some ⟨ErrorCode.success, ResultPayload.empty, 3⟩⟩ 2).2.2
     (by decide)⟩

/-- C6: `take` is the single synchronization point.  On any well-formed
registry (at most one entry per token, as `register` guarantees), once a
consumer has received the `Some(PendingCall)` for a token, every later
`take` of the same token returns `None`; and in any bridged call's trace at
most one `take` — the dispatch adapter's or the early-error cleanup's, never
both — actually obtains the entry. -/
theorem pool_C6_take_single_consumer :
    (∀ (r : Registry) (t : CommandHandle) (p : PendingCall),
       r.wf → (r.take t).1 = some p → (((r.take t).2).take t).1 = none)
    ∧ (∀ (s : Strategy) (sh : ResultShape) (nb : NativeBehavior) (t : CommandHandle),
       (successfulTakes (callEvents s sh nb t)).length ≤ 1) := by
  constructor
  · exact fun r t p h hp => Registry.take_take_eq_none r t p h hp
  · intro s sh nb t
    obtain ⟨imm, comp⟩ := nb
    by_cases h : imm = ErrorCode.success
    · subst h
      cases comp with
      | none => simp [callEvents_success_none, successfulTakes]
      | some c => simp [callEvents_success_some, successfulTakes]
    · cases comp with
      | none => simp [callEvents_failure_none _ _ _ _ h, successfulTakes]
      | some c => simp [callEvents_failure_some _ _ _ _ _ h, successfulTakes]

theorem pool_C6_witness :
    ((Registry.take
        (Registry.take [(1, PendingCall.blockingChannel ResultShape.empty)] 1).2 1).1 = none) :=
  pool_C6_take_single_consumer.1 [(1, PendingCall.blockingChannel ResultShape.empty)] 1
    (PendingCall.blockingChannel ResultShape.empty)
    (by simp [Registry.wf, Registry.keys]) (by decide)

/-- C7: for every calling style and every result shape (hence every
operation routed through the bridge), the trace of a call begins with the
registration of the continuation, strictly followed by the native
invocation — so registration happens before the invocation and before any
take or delivery for the token, which can only occur in the remaining
tail. -/
theorem pool_C7_registration_before_invocation :
    ∀ (s : Strategy) (sh : ResultShape) (nb : NativeBehavior) (t : CommandHandle),
      ∃ tail, callEvents s sh nb t =
        BridgeEvent.registered t (pendingFor s sh) ::
        BridgeEvent.invoked t nb.immediate :: tail := by
  intro s sh nb t
  obtain ⟨imm, comp⟩ := nb
  by_cases h : imm = ErrorCode.success
  · subst h
    cases comp with
    | none => exact ⟨_, callEvents_success_none s sh t⟩
    | some c => exact ⟨_, callEvents_success_some s sh c t⟩
  · cases comp with
    | none => exact ⟨_, callEvents_failure_none s sh _ t h⟩
    | some c => exact ⟨_, callEvents_failure_some s sh _ c t h⟩

theorem earlyError_trace (s : Strategy) (sh : ResultShape) (nb : NativeBehavior)
    (t : CommandHandle) (h : nb.immediate ≠ ErrorCode.success) :
    deliveries (callEvents s sh nb t) = []
    ∧ entryTakenAt (callEvents s sh nb t) = some 0 := by
  obtain ⟨imm, comp⟩ := nb
  have h2 : imm ≠ ErrorCode.success := h
  cases comp with
  | none =>
    constructor <;>
      simp [callEvents_failure_none _ _ _ _ h2, deliveries, successfulTakes, entryTakenAt]
  | some c =>
    constructor <;>
      simp [callEvents_failure_some _ _ _ _ _ h2, deliveries, successfulTakes, entryTakenAt]

theorem deliveries_success (s : Strategy) (sh : ResultShape) (nb : NativeBehavior)
    (t : CommandHandle) (c : Completion)
    (h : nb.immediate = ErrorCode.success) (hc : nb.completion = some c) :
    deliveries (callEvents s sh nb t) = [(c.delay, ⟨c.status, c.payload⟩)] := by
  obtain ⟨imm, comp⟩ := nb
  have h2 : imm = ErrorCode.success := h
  have hc2 : comp = some c := hc
  subst h2
  subst hc2
  simp [callEvents_success_some, deliveries]

theorem takenAt_success (s : Strategy) (sh : ResultShape) (nb : NativeBehavior)
    (t : CommandHandle) (c : Completion)
    (h : nb.immediate = ErrorCode.success) (hc : nb.completion = some c) :
    entryTakenAt (callEvents s sh nb t) = some c.delay := by
  obtain ⟨imm, comp⟩ := nb
  have h2 : imm = ErrorCode.success := h
  have hc2 : comp = some c := hc
  subst h2
  subst hc2
  simp [callEvents_success_some, successfulTakes, entryTakenAt]

theorem empty_timeout_expires (sh : ResultShape) (nb : NativeBehavior)
    (t : CommandHandle) (timeout : Nat) (c : Completion)
    (h : nb.immediate = ErrorCode.success) (hc : nb.completion = some c)
    (hd : timeout < c.delay) :
    ResultHandler.empty_timeout nb.immediate
      (deliveries (callEvents (.blockTimeout timeout) sh nb t)) timeout
      = .error ErrorCode.commonIOError := by
  rw [deliveries_success _ _ _ _ _ h hc, h]
  simp [ResultHandler.empty_timeout, Nat.not_le.2 hd]

/-- C3: for a closure-based call (here `Pool::create_ledger_config_async`),
if the native invocation returns a failure status synchronously, the façade
returns exactly that status, the orphaned registry entry is discarded by an
immediate `take` (at time 0), and the user-supplied continuation is never
invoked — whatever the native side does afterwards. -/
theorem pool_C3_early_error_closure_never_invoked :
    ∀ (ffi : FFIEnv) (t : CommandHandle) (pool_name pool_config : String),
      (Pool.create_ledger_config_async ffi t pool_name pool_config).returned
          ≠ ErrorCode.success →
      (Pool.create_ledger_config_async ffi t pool_name pool_config).closureCalls = []
      ∧ entryTakenAt (callEvents .invokeClosure .empty
          ((ffi (Pool._create_ledger_config ffi t pool_name pool_config).2).toBehavior) t)
          = some 0
      ∧ (Pool.create_ledger_config_async ffi t pool_name pool_config).returned
          = (Pool._create_ledger_config ffi t pool_name pool_config).1 := by
  intro ffi t pn pc h
  have h2 : ((ffi (Pool._create_ledger_config ffi t pn pc).2).toBehavior).immediate
      ≠ ErrorCode.success := h
  exact ⟨(earlyError_trace _ _ _ _ h2).1, (earlyError_trace _ _ _ _ h2).2, rfl⟩

theorem pool_C3_witness :
    (Pool.create_ledger_config_async (fun _ => ⟨113, none⟩) 1 "TestPool" "cfg").closureCalls = []
    ∧ entryTakenAt (callEvents .invokeClosure .empty
        ((((fun _ => ⟨113, none⟩) : FFIEnv)
            (Pool._create_ledger_config (fun _ => ⟨113, none⟩) 1 "TestPool" "cfg").2).toBehavior) 1)
        = some 0 :=
  ⟨(pool_C3_early_error_closure_never_invoked (fun _ => ⟨113, none⟩) 1 "TestPool" "cfg"
      (by decide)).1,
   (pool_C3_early_error_closure_never_invoked (fun _ => ⟨113, none⟩) 1 "TestPool" "cfg"
      (by decide)).2.1⟩

/-- C4: for every blocking call (with or without timeout), a synchronous
failure status is the early-error path: the now-orphaned registry entry is
removed by an immediate `take` (at time 0) and the failure status is
returned at once — the result is independent of whatever is (or is not) on
the channel, i.e. the waiter does not block on it. -/
theorem pool_C4_early_error_blocking :
    ∀ (nb : NativeBehavior) (sh : ResultShape) (t : CommandHandle)
      (timeout : Nat) (received : List (Nat × Outcome)),
      nb.immediate ≠ ErrorCode.success →
      ResultHandler.empty nb.immediate received = some (.error nb.immediate)
      ∧ ResultHandler.empty_timeout nb.immediate received timeout = .error nb.immediate
      ∧ entryTakenAt (callEvents .block sh nb t) = some 0
      ∧ entryTakenAt (callEvents (.blockTimeout timeout) sh nb t) = some 0 := by
  intro nb sh t timeout received h
  refine ⟨?_, ?_, (earlyError_trace _ _ _ _ h).2, (earlyError_trace _ _ _ _ h).2⟩
  · simp [ResultHandler.empty, h]
  · simp [ResultHandler.empty_timeout, h]

theorem pool_C4_witness :
    ResultHandler.empty ErrorCode.commonInvalidStructure
        [(0, ⟨ErrorCode.success, ResultPayload.empty⟩)]
      = some (.error ErrorCode.commonInvalidStructure)
    ∧ ResultHandler.empty_timeout ErrorCode.commonInvalidStructure
        [(0, ⟨ErrorCode.success, ResultPayload.empty⟩)] 5
      = .error ErrorCode.commonInvalidStructure
    ∧ entryTakenAt (callEvents .block .empty ⟨ErrorCode.commonInvalidStructure, none⟩ 1)
      = some 0
    ∧ entryTakenAt (callEvents (.blockTimeout 5) .empty
        ⟨ErrorCode.commonInvalidStructure, none⟩ 1) = some 0 :=
  pool_C4_early_error_blocking ⟨ErrorCode.commonInvalidStructure, none⟩ .empty 1 5
    [(0, ⟨ErrorCode.success, ResultPayload.empty⟩)] (by decide)

/-- C5: a timeout observed by the caller does not cancel the native
operation.  When the synchronous status was success and the completion
fires (successfully) only after the deadline, the caller gets the
locally-synthesized failure, yet the operation's side effect still occurs,
the registry entry stays alive through the deadline and until the real
completion arrives (it is taken exactly at the completion's time), and the
real outcome is still delivered then (to the dead channel, harmlessly). -/
theorem pool_C5_timeout_does_not_cancel :
    ∀ (sh : ResultShape) (nb : NativeBehavior) (t : CommandHandle)
      (timeout : Nat) (c : Completion),
      nb.immediate = ErrorCode.success → nb.completion = some c →
      timeout < c.delay → c.status = ErrorCode.success →
      ResultHandler.empty_timeout nb.immediate
          (deliveries (callEvents (.blockTimeout timeout) sh nb t)) timeout
        = .error ErrorCode.commonIOError
      ∧ sideEffectOccurs nb = true
      ∧ entryTakenAt (callEvents (.blockTimeout timeout) sh nb t) = some c.delay
      ∧ entryPresentAt (callEvents (.blockTimeout timeout) sh nb t) timeout = true
      ∧ (∀ u : Nat, u < c.delay →
          entryPresentAt (callEvents (.blockTimeout timeout) sh nb t) u = true)
      ∧ deliveries (callEvents (.blockTimeout timeout) sh nb t)
          = [(c.delay, ⟨c.status, c.payload⟩)] := by
  intro sh nb t timeout c h hc hd hs
  refine ⟨empty_timeout_expires sh nb t timeout c h hc hd, ?_, ?_, ?_, ?_, ?_⟩
  · obtain ⟨imm, comp⟩ := nb
    have hc2 : comp = some c := hc
    subst hc2
    simp [sideEffectOccurs, hs]
  · exact takenAt_success _ _ _ _ _ h hc
  · simp [entryPresentAt, takenAt_success _ _ _ _ _ h hc, hd]
  · intro u hu
    simp [entryPresentAt, takenAt_success _ _ _ _ _ h hc, hu]
  · exact deliveries_success _ _ _ _ _ h hc

theorem pool_C5_witness :
    ResultHandler.empty_timeout ErrorCode.success
        (deliveries (callEvents (.blockTimeout 1) .empty
          ⟨ErrorCode.success, some ⟨ErrorCode.success, ResultPayload.empty, 5⟩⟩ 3)) 1
      = .error ErrorCode.commonIOError
    ∧ sideEffectOccurs ⟨ErrorCode.success, some ⟨ErrorCode.success, ResultPayload.empty, 5⟩⟩ = true
    ∧ entryTakenAt (callEvents (.blockTimeout 1) .empty
        ⟨ErrorCode.success, some ⟨ErrorCode.success, ResultPayload.empty, 5⟩⟩ 3) = some 5
    ∧ entryPresentAt (callEvents (.blockTimeout 1) .empty
        ⟨ErrorCode.success, some ⟨ErrorCode.success, ResultPayload.empty, 5⟩⟩ 3) 1 = true :=
  (fun full => ⟨full.1, full.2.1, full.2.2.1, full.2.2.2.1⟩)
    (pool_C5_timeout_does_not_cancel .empty
      ⟨ErrorCode.success, some ⟨ErrorCode.success, ResultPayload.empty, 5⟩⟩ 3 1
      ⟨ErrorCode.success, ResultPayload.empty, 5⟩ rfl rfl (by decide) rfl)

/-- C1 (counterexample): the claim names a dedicated `TimeoutExpired`
status that never originates from the native side.  The code has no such
dedicated status: the status a timed-out blocking caller receives is
`CommonIOError` (first conjunct, matching the in-source test
`config_timeout_timeouts`), and the very same `CommonIOError` also reaches
callers straight from the native side as the delivered status of a late
I/O failure (second conjunct, matching the in-source test
`config_with_unknown_path_genesis_txn`) — so the timeout status is neither
`TimeoutExpired` nor dedicated to timeouts. -/
theorem pool_C1_counterexample :
    ResultHandler.empty_timeout ErrorCode.success
        (deliveries (callEvents (.blockTimeout 1) .empty
          ⟨ErrorCode.success, some ⟨ErrorCode.success, ResultPayload.empty, 5⟩⟩ 3)) 1
      = .error ErrorCode.commonIOError
    ∧ ResultHandler.empty ErrorCode.success
        (deliveries (callEvents .block .empty
          ⟨ErrorCode.success, some ⟨ErrorCode.commonIOError, ResultPayload.empty, 2⟩⟩ 4))
      = some (.error ErrorCode.commonIOError) :=
  ⟨rfl, rfl⟩

/-- C1 (amended): for every blocking-with-timeout call whose native
invocation returns synchronous success but whose completion does not
arrive before the deadline, the caller receives a failure status that the
blocking waiter synthesizes locally from the channel's receive-timeout —
the conclusion holds whatever status the native completion later carries,
so the status does not originate from the native side of this call — but
that status is `CommonIOError`, a code shared with native I/O failures,
not a dedicated `TimeoutExpired`. -/
theorem pool_C1_timeout_synthesized_locally :
    ∀ (sh : ResultShape) (nb : NativeBehavior) (t : CommandHandle)
      (timeout : Nat) (c : Completion),
      nb.immediate = ErrorCode.success → nb.completion = some c →
      timeout < c.delay →
      ResultHandler.empty_timeout nb.immediate
          (deliveries (callEvents (.blockTimeout timeout) sh nb t)) timeout
        = .error ErrorCode.commonIOError :=
  fun sh nb t timeout c h hc hd => empty_timeout_expires sh nb t timeout c h hc hd

theorem pool_C1_witness :
    ResultHandler.empty_timeout ErrorCode.success
        (deliveries (callEvents (.blockTimeout 2) .empty
          ⟨ErrorCode.success, some ⟨ErrorCode.poolLedgerConfigAlreadyExistsError,
             ResultPayload.empty, 9⟩⟩ 6)) 2
      = .error ErrorCode.commonIOError :=
  pool_C1_timeout_synthesized_locally .empty
    ⟨ErrorCode.success, some ⟨ErrorCode.poolLedgerConfigAlreadyExistsError,
       ResultPayload.empty, 9⟩⟩ 6 2
    ⟨ErrorCode.poolLedgerConfigAlreadyExistsError, ResultPayload.empty, 9⟩
    rfl rfl (by decide)

/-- C8: a closure-based variant (here `Pool::create_ledger_config_async`)
returns, without blocking, exactly the immediate status of the native
invocation; when that status is success and the native completion fires,
the user continuation receives the completion later (at the completion's
time, on the native side's schedule), exactly once. -/
theorem pool_C8_async_returns_immediate_status :
    ∀ (ffi : FFIEnv) (t : CommandHandle) (pool_name pool_config : String),
      (Pool.create_ledger_config_async ffi t pool_name pool_config).returned
        = (Pool._create_ledger_config ffi t pool_name pool_config).1
      ∧ ((Pool.create_ledger_config_async ffi t pool_name pool_config).returned
            = ErrorCode.success →
         ∀ c, ((ffi (Pool._create_ledger_config ffi t pool_name pool_config).2).toBehavior).completion
            = some c →
          (Pool.create_ledger_config_async ffi t pool_name pool_config).closureCalls
            = [(c.delay, ⟨c.status, c.payload⟩)]) := by
  intro ffi t pn pc
  refine ⟨rfl, ?_⟩
  intro h c hc
  exact deliveries_success .invokeClosure .empty
    ((ffi (Pool._create_ledger_config ffi t pn pc).2).toBehavior) t c h hc

theorem pool_C8_witness :
    (Pool.create_ledger_config_async
        (fun _ => ⟨0, some ⟨0, ResultPayload.empty, 2⟩⟩) 1 "TestPool" "cfg").closureCalls
      = [(2, ⟨ErrorCode.success, ResultPayload.empty⟩)] :=
  (pool_C8_async_returns_immediate_status
      (fun _ => ⟨0, some ⟨0, ResultPayload.empty, 2⟩⟩) 1 "TestPool" "cfg").2
    (by decide) ⟨ErrorCode.success, ResultPayload.empty, 2⟩ (by decide)

/-- C9: for each operation of the façade, the blocking, the
blocking-with-timeout and the closure-based variants perform the identical
native invocation — the one computed by the operation's single underscore
path, with identically marshaled arguments — and each variant's result is
the single generic register + invoke + deliver primitive applied to that
invocation under the variant's delivery strategy; the three styles differ
only in that strategy. -/
theorem pool_C9_one_primitive_three_strategies :
    ∀ (ffi : FFIEnv) (t : CommandHandle) (pool_name pool_config : String)
      (config : Option String) (pool_handle : Int) (protocol_version : Nat)
      (timeout : Nat),
      (Pool.create_ledger_config ffi t pool_name pool_config).2
          = (Pool._create_ledger_config ffi t pool_name pool_config).2
      ∧ (Pool.create_ledger_config_timeout ffi t pool_name pool_config timeout).2
          = (Pool._create_ledger_config ffi t pool_name pool_config).2
      ∧ (Pool.create_ledger_config_async ffi t pool_name pool_config).invocation
          = (Pool._create_ledger_config ffi t pool_name pool_config).2
      ∧ (Pool.create_ledger_config ffi t pool_name pool_config).1
          = ResultHandler.empty
              (registerInvokeDeliver .block .empty ffi
                (Pool._create_ledger_config ffi t pool_name pool_config).2).1
              (registerInvokeDeliver .block .empty ffi
                (Pool._create_ledger_config ffi t pool_name pool_config).2).2
      ∧ (Pool.create_ledger_config_timeout ffi t pool_name pool_config timeout).1
          = ResultHandler.empty_timeout
              (registerInvokeDeliver (.blockTimeout timeout) .empty ffi
                (Pool._create_ledger_config ffi t pool_name pool_config).2).1
              (registerInvokeDeliver (.blockTimeout timeout) .empty ffi
                (Pool._create_ledger_config ffi t pool_name pool_config).2).2
              timeout
      ∧ (Pool.create_ledger_config_async ffi t pool_name pool_config).returned
          = (registerInvokeDeliver .invokeClosure .empty ffi
              (Pool._create_ledger_config ffi t pool_name pool_config).2).1
      ∧ (Pool.create_ledger_config_async ffi t pool_name pool_config).closureCalls
          = (registerInvokeDeliver .invokeClosure .empty ffi
              (Pool._create_ledger_config ffi t pool_name pool_config).2).2
      ∧ (Pool.open_ledger ffi t pool_name config).2
          = (Pool._open_ledger ffi t pool_name config).2
      ∧ (Pool.open_ledger_timeout ffi t pool_name config timeout).2
          = (Pool._open_ledger ffi t pool_name config).2
      ∧ (Pool.open_ledger_async ffi t pool_name config).invocation
          = (Pool._open_ledger ffi t pool_name config).2
      ∧ (Pool.open_ledger ffi t pool_name config).1
          = ResultHandler.one Outcome.handleValue
              (registerInvokeDeliver .block .handleValue ffi
                (Pool._open_ledger ffi t pool_name config).2).1
              (registerInvokeDeliver .block .handleValue ffi
                (Pool._open_ledger ffi t pool_name config).2).2
      ∧ (Pool.open_ledger_timeout ffi t pool_name config timeout).1
          = ResultHandler.one_timeout Outcome.handleValue
              (registerInvokeDeliver (.blockTimeout timeout) .handleValue ffi
                (Pool._open_ledger ffi t pool_name config).2).1
              (registerInvokeDeliver (.blockTimeout timeout) .handleValue ffi
                (Pool._open_ledger ffi t pool_name config).2).2
              timeout
      ∧ (Pool.open_ledger_async ffi t pool_name config).returned
          = (registerInvokeDeliver .invokeClosure .handleValue ffi
              (Pool._open_ledger ffi t pool_name config).2).1
      ∧ (Pool.open_ledger_async ffi t pool_name config).closureCalls
          = (registerInvokeDeliver .invokeClosure .handleValue ffi
              (Pool._open_ledger ffi t pool_name config).2).2
      ∧ (Pool.refresh ffi t pool_handle).2 = (Pool._refresh ffi t pool_handle).2
      ∧ (Pool.refresh_timeout ffi t pool_handle timeout).2
          = (Pool._refresh ffi t pool_handle).2
      ∧ (Pool.refresh_async ffi t pool_handle).invocation
          = (Pool._refresh ffi t pool_handle).2
      ∧ (Pool.refresh ffi t pool_handle).1
          = ResultHandler.empty
              (registerInvokeDeliver .block .empty ffi (Pool._refresh ffi t pool_handle).2).1
              (registerInvokeDeliver .block .empty ffi (Pool._refresh ffi t pool_handle).2).2
      ∧ (Pool.refresh_timeout ffi t pool_handle timeout).1
          = ResultHandler.empty_timeout
              (registerInvokeDeliver (.blockTimeout timeout) .empty ffi
                (Pool._refresh ffi t pool_handle).2).1
              (registerInvokeDeliver (.blockTimeout timeout) .empty ffi
                (Pool._refresh ffi t pool_handle).2).2
              timeout
      ∧ (Pool.refresh_async ffi t pool_handle).returned
          = (registerInvokeDeliver .invokeClosure .empty ffi
              (Pool._refresh ffi t pool_handle).2).1
      ∧ (Pool.refresh_async ffi t pool_handle).closureCalls
          = (registerInvokeDeliver .invokeClosure .empty ffi
              (Pool._refresh ffi t pool_handle).2).2
      ∧ (Pool.list ffi t).2 = (Pool._list ffi t).2
      ∧ (Pool.list_timeout ffi t timeout).2 = (Pool._list ffi t).2
      ∧ (Pool.list_async ffi t).invocation = (Pool._list ffi t).2
      ∧ (Pool.list ffi t).1
          = ResultHandler.one Outcome.stringValue
              (registerInvokeDeliver .block .stringValue ffi (Pool._list ffi t).2).1
              (registerInvokeDeliver .block .stringValue ffi (Pool._list ffi t).2).2
      ∧ (Pool.list_timeout ffi t timeout).1
          = ResultHandler.one_timeout Outcome.stringValue
              (registerInvokeDeliver (.blockTimeout timeout) .stringValue ffi
                (Pool._list ffi t).2).1
              (registerInvokeDeliver (.blockTimeout timeout) .stringValue ffi
                (Pool._list ffi t).2).2
              timeout
      ∧ (Pool.list_async ffi t).returned
          = (registerInvokeDeliver .invokeClosure .stringValue ffi (Pool._list ffi t).2).1
      ∧ (Pool.list_async ffi t).closureCalls
          = (registerInvokeDeliver .invokeClosure .stringValue ffi (Pool._list ffi t).2).2
      ∧ (Pool.close ffi t pool_handle).2 = (Pool._close ffi t pool_handle).2
      ∧ (Pool.close_timeout ffi t pool_handle timeout).2
          = (Pool._close ffi t pool_handle).2
      ∧ (Pool.close_async ffi t pool_handle).invocation
          = (Pool._close ffi t pool_handle).2
      ∧ (Pool.close ffi t pool_handle).1
          = ResultHandler.empty
              (registerInvokeDeliver .block .empty ffi (Pool._close ffi t pool_handle).2).1
              (registerInvokeDeliver .block .empty ffi (Pool._close ffi t pool_handle).2).2
      ∧ (Pool.close_timeout ffi t pool_handle timeout).1
          = ResultHandler.empty_timeout
              (registerInvokeDeliver (.blockTimeout timeout) .empty ffi
                (Pool._close ffi t pool_handle).2).1
              (registerInvokeDeliver (.blockTimeout timeout) .empty ffi
                (Pool._close ffi t pool_handle).2).2
              timeout
      ∧ (Pool.close_async ffi t pool_handle).returned
          = (registerInvokeDeliver .invokeClosure .empty ffi
              (Pool._close ffi t pool_handle).2).1
      ∧ (Pool.close_async ffi t pool_handle).closureCalls
          = (registerInvokeDeliver .invokeClosure .empty ffi
              (Pool._close ffi t pool_handle).2).2
      ∧ (Pool.delete ffi t pool_name).2 = (Pool._delete ffi t pool_name).2
      ∧ (Pool.delete_timeout ffi t pool_name timeout).2
          = (Pool._delete ffi t pool_name).2
      ∧ (Pool.delete_async ffi t pool_name).invocation
          = (Pool._delete ffi t pool_name).2
      ∧ (Pool.delete ffi t pool_name).1
          = ResultHandler.empty
              (registerInvokeDeliver .block .empty ffi (Pool._delete ffi t pool_name).2).1
              (registerInvokeDeliver .block .empty ffi (Pool._delete ffi t pool_name).2).2
      ∧ (Pool.delete_timeout ffi t pool_name timeout).1
          = ResultHandler.empty_timeout
              (registerInvokeDeliver (.blockTimeout timeout) .empty ffi
                (Pool._delete ffi t pool_name).2).1
              (registerInvokeDeliver (.blockTimeout timeout) .empty ffi
                (Pool._delete ffi t pool_name).2).2
              timeout
      ∧ (Pool.delete_async ffi t pool_name).returned
          = (registerInvokeDeliver .invokeClosure .empty ffi
              (Pool._delete ffi t pool_name).2).1
      ∧ (Pool.delete_async ffi t pool_name).closureCalls
          = (registerInvokeDeliver .invokeClosure .empty ffi
              (Pool._delete ffi t pool_name).2).2
      ∧ (Pool.set_protocol_version ffi t protocol_version).2
          = (Pool._set_protocol_version ffi t protocol_version).2
      ∧ (Pool.set_protocol_version_timeout ffi t protocol_version timeout).2
          = (Pool._set_protocol_version ffi t protocol_version).2
      ∧ (Pool.set_protocol_version_async ffi t protocol_version).invocation
          = (Pool._set_protocol_version ffi t protocol_version).2
      ∧ (Pool.set_protocol_version ffi t protocol_version).1
          = ResultHandler.empty
              (registerInvokeDeliver .block .empty ffi
                (Pool._set_protocol_version ffi t protocol_version).2).1
              (registerInvokeDeliver .block .empty ffi
                (Pool._set_protocol_version ffi t protocol_version).2).2
      ∧ (Pool.set_protocol_version_timeout ffi t protocol_version timeout).1
          = ResultHandler.empty_timeout
              (registerInvokeDeliver (.blockTimeout timeout) .empty ffi
                (Pool._set_protocol_version ffi t protocol_version).2).1
              (registerInvokeDeliver (.blockTimeout timeout) .empty ffi
                (Pool._set_protocol_version ffi t protocol_version).2).2
              timeout
      ∧ (Pool.set_protocol_version_async ffi t protocol_version).returned
          = (registerInvokeDeliver .invokeClosure .empty ffi
              (Pool._set_protocol_version ffi t protocol_version).2).1
      ∧ (Pool.set_protocol_version_async ffi t protocol_version).closureCalls
          = (registerInvokeDeliver .invokeClosure .empty ffi
              (Pool._set_protocol_version ffi t protocol_version).2).2 := by
  intro ffi t pool_name pool_config config pool_handle protocol_version timeout
  exact ⟨rfl, rfl, rfl, rfl, rfl, rfl, rfl,
         rfl, rfl, rfl, rfl, rfl, rfl, rfl,
         rfl, rfl, rfl, rfl, rfl, rfl, rfl,
         rfl, rfl, rfl, rfl, rfl, rfl, rfl,
         rfl, rfl, rfl, rfl, rfl, rfl, rfl,
         rfl, rfl, rfl, rfl, rfl, rfl, rfl,
         rfl, rfl, rfl, rfl, rfl, rfl, rfl⟩

/-- C10: `Pool::set_protocol_version` and its timeout and async variants
perform no validation of the protocol-version argument: for every value —
including values other than the documented 1 and 2 — each variant forwards
the value unchanged in its native invocation, and the result is whatever
status the native side returns (converted by `ErrorCode::from`). -/
theorem pool_C10_set_protocol_version_no_validation :
    ∀ (ffi : FFIEnv) (t : CommandHandle) (protocol_version : Nat) (timeout : Nat),
      (Pool.set_protocol_version ffi t protocol_version).2.args
          = [FFIArg.unsigned protocol_version]
      ∧ (Pool.set_protocol_version_timeout ffi t protocol_version timeout).2.args
          = [FFIArg.unsigned protocol_version]
      ∧ (Pool.set_protocol_version_async ffi t protocol_version).invocation.args
          = [FFIArg.unsigned protocol_version]
      ∧ (Pool.set_protocol_version_async ffi t protocol_version).returned
          = ErrorCode.ofInt
              (ffi ⟨t, "indy_set_protocol_version",
                 [FFIArg.unsigned protocol_version]⟩).immediateRaw
      ∧ (Pool.set_protocol_version ffi t protocol_version).1
          = ResultHandler.empty
              (ErrorCode.ofInt
                (ffi ⟨t, "indy_set_protocol_version",
                   [FFIArg.unsigned protocol_version]⟩).immediateRaw)
              (deliveries (callEvents .block .empty
                ((ffi ⟨t, "indy_set_protocol_version",
                    [FFIArg.unsigned protocol_version]⟩).toBehavior) t)) := by
  intro ffi t protocol_version timeout
  exact ⟨rfl, rfl, rfl, rfl, rfl⟩
